import Mathlib

/-!
Verification development for the mep session/concurrency orchestrator
(src/mep/src/main.rs). The scripting runtime (koto), the MIDI transport and
the terminal renderer are external capabilities; they are modelled as
oracles and effect traces, per the specification. All definitions below are
shallow embeddings of the corresponding Rust functions in the source.
-/

namespace Mep

/-! ## Data model -/

/-- Filesystem snapshot of the watched scripts folder: an association list
from path to file content. A path absent from the list is unreadable. -/
abbrev FS : Type := List (String × String)

/-- Embedding of fs::read_to_string: some content when the path is readable. -/
def readToString (fsys : FS) (p : String) : Option String :=
  (fsys.find? (fun e => e.1 == p)).map Prod.snd

/-- Whether a path carries the koto extension, as checked by
collect_available_scripts_to and is_koto_script in the source. Implemented
over the character list so that the kernel can evaluate it. -/
def has_koto_extension (p : String) : Bool :=
  p.data.reverse.take 5 == (".koto".data.reverse)

/-- Embedding of collect_available_scripts_to (src/mep/src/main.rs:442):
enumerates the folder and keeps paths with the koto extension, in
directory-enumeration order. -/
def collect_available_scripts (fsys : FS) : List String :=
  (fsys.map Prod.fst).filter (fun p => has_koto_extension p)

/-- Embedding of the Context struct (src/mep/src/main.rs:59). -/
structure Context where
  scripts_folder_path : String
  available_scripts : List String
  chosen_index_checked : Nat
  chosen_script : String
  chosen_script_path : String
deriving Repr, DecidableEq

/-- Abstract state of the koto runtime: the source text of the program most
recently loaded by a successful compile-and-run, if any. The language
runtime is an opaque external capability per the specification. -/
structure Koto where
  loaded : Option String
deriving Repr, DecidableEq

/-- Language-runtime oracle: whether a given source text compiles, and
whether its top-level run phase succeeds. The runtime is an external
capability, so its verdicts are parameters of the model. -/
structure LangOracle where
  compiles : String → Bool
  runs : String → Bool

/-- Embedding of the WatcherToMainMessage enum (src/mep/src/main.rs:52). -/
inductive WatcherToMainMessage
  | noticeWrite (path : String)
  | noticeRemove (path : String)
  | create (path : String)
  | werror (path : Option String)
deriving Repr, DecidableEq

/-- Observable actions performed by the engine and dispatcher: error reports
to the presentation collaborator, run-phase invocations on the runtime,
listener invocations with a MIDI message, catalog re-renders, and the
acknowledgement of ignored input. -/
inductive Action
  | showError (path : String)
  | runInvoked (src : String)
  | listenInvoked (message : List Nat)
  | render (idx : Nat)
  | ignoreChoice
  | clearLines
deriving Repr, DecidableEq

/-! ## The midi.send primitive (src/mep/src/main.rs:279) -/

/-- Koto numeric values as seen by the send primitive. -/
inductive KNumber
  | i64 (n : Int)
  | f64
deriving Repr, DecidableEq

/-- Koto values as seen by the send primitive. -/
inductive KValue
  | number (n : KNumber)
  | list (xs : List KValue)
  | str (s : String)
  | empty
  | other

/-- The fixed error text sent on a malformed send argument
(src/mep/src/main.rs:275). -/
def send_error_message : String :=
  "Error calling midi.send: Wrong argument type, please try to use a list of bytes (integers ranged to 0..=255) as an argument."

/-- The error text sent when the transport rejects the message
(src/mep/src/main.rs:307). -/
def send_failure_message : String :=
  "Error when trying to send midi message."

/-- Effects of one call of the midi.send primitive: byte arrays handed to
the transport, messages pushed onto the internal error channel to the
dispatcher, and the value returned (or error raised) into the script. -/
structure SendEffect where
  transport_attempts : List (List Nat)
  channel_msgs : List String
  ret : Except String KValue

/-- Embedding of the element conversion in midi.send: iterate the list,
converting i64 values in 0..=255 to bytes; on the first offending element
push one error message and abort the collection (Rust collect on Result
short-circuits). -/
def convert_bytes : List KValue → Option (List Nat) × List String
  | [] => (some [], [])
  | v :: rest =>
    match v with
    | KValue.number (KNumber.i64 n) =>
      if 0 ≤ n ∧ n ≤ 255 then
        match convert_bytes rest with
        | (some bs, msgs) => (some (n.toNat :: bs), msgs)
        | (none, msgs) => (none, msgs)
      else (none, [send_error_message])
    | _ => (none, [send_error_message])

/-- Embedding of the midi.send closure (src/mep/src/main.rs:280): on a
single list argument, convert elements; when conversion succeeds hand the
bytes to the transport (whose failure is reported on the channel); on any
failure report on the channel; the list branch always returns Empty to the
script. A non-list argument reports on the channel and returns Empty. -/
def midi_send (transport_fails : Bool) (args : List KValue) : SendEffect :=
  match args with
  | [KValue.list message] =>
    (match convert_bytes message with
     | (some bytes, _) =>
       if transport_fails then
         { transport_attempts := [bytes], channel_msgs := [send_failure_message],
           ret := Except.ok KValue.empty }
       else
         { transport_attempts := [bytes], channel_msgs := [],
           ret := Except.ok KValue.empty }
     | (none, msgs) =>
       { transport_attempts := [], channel_msgs := msgs,
         ret := Except.ok KValue.empty })
  | _ =>
    { transport_attempts := [], channel_msgs := [send_error_message],
      ret := Except.ok KValue.empty }

/-- A koto value that the send primitive accepts as one MIDI byte. -/
def is_good_byte : KValue → Bool
  | KValue.number (KNumber.i64 n) => decide (0 ≤ n) && decide (n ≤ 255)
  | _ => false

theorem convert_bytes_none_msgs {message : List KValue} :
    (convert_bytes message).1 = none → (convert_bytes message).2 ≠ [] := by
  induction message with
  | nil => simp [convert_bytes]
  | cons v rest ih =>
    cases v with
    | number n =>
      cases n with
      | i64 k =>
        by_cases hk : 0 ≤ k ∧ k ≤ 255
        · simp only [convert_bytes, hk, if_pos]
          rcases hc : convert_bytes rest with ⟨ob, msgs⟩
          rw [hc] at ih
          cases ob with
          | some bs => simp
          | none => intro _; simpa using ih rfl
        · simp [convert_bytes, hk, send_error_message]
      | f64 => simp [convert_bytes, send_error_message]
    | list xs => simp [convert_bytes, send_error_message]
    | str s => simp [convert_bytes, send_error_message]
    | empty => simp [convert_bytes, send_error_message]
    | other => simp [convert_bytes, send_error_message]

theorem convert_bytes_bad {message : List KValue} (v : KValue)
    (hv : v ∈ message) (hbad : is_good_byte v = false) :
    (convert_bytes message).1 = none ∧ (convert_bytes message).2 ≠ [] := by
  induction message with
  | nil => cases hv
  | cons w rest ih =>
    rcases List.mem_cons.mp hv with h | h
    · subst h
      cases v with
      | number n =>
        cases n with
        | i64 k =>
          simp only [is_good_byte, Bool.and_eq_false_iff, decide_eq_false_iff_not,
            not_le] at hbad
          have hk : ¬ (0 ≤ k ∧ k ≤ 255) := by omega
          simp [convert_bytes, hk, send_error_message]
        | f64 => simp [convert_bytes, send_error_message]
      | list xs => simp [convert_bytes, send_error_message]
      | str s => simp [convert_bytes, send_error_message]
      | empty => simp [convert_bytes, send_error_message]
      | other => simp [convert_bytes, send_error_message]
    · have hrest := ih h
      cases w with
      | number n =>
        cases n with
        | i64 k =>
          by_cases hk : 0 ≤ k ∧ k ≤ 255
          · simp only [convert_bytes, hk, if_pos]
            rcases hc : convert_bytes rest with ⟨ob, msgs⟩
            rw [hc] at hrest
            cases ob with
            | some bs => simp at hrest
            | none => simpa using hrest
          · simp [convert_bytes, hk, send_error_message]
        | f64 => simp [convert_bytes, send_error_message]
      | list xs => simp [convert_bytes, send_error_message]
      | str s => simp [convert_bytes, send_error_message]
      | empty => simp [convert_bytes, send_error_message]
      | other => simp [convert_bytes, send_error_message]

/-- C4: an argument to midi.send that is not a single list, or whose list
contains an element that is not an integer byte in 0..=255, never reaches
the transport send, and always pushes a protocol error for the user. -/
theorem spec_C4 (transport_fails : Bool) (args : List KValue)
    (hbad : (∀ message : List KValue, args ≠ [KValue.list message]) ∨
      (∃ message v, args = [KValue.list message] ∧ v ∈ message ∧
        is_good_byte v = false)) :
    (midi_send transport_fails args).transport_attempts = [] ∧
    (midi_send transport_fails args).channel_msgs ≠ [] := by
  rcases hbad with hnl | ⟨message, v, hargs, hv, hbadv⟩
  · cases args with
    | nil => simp [midi_send, send_error_message]
    | cons a rest =>
      cases rest with
      | cons b r2 => cases a <;> simp [midi_send, send_error_message]
      | nil =>
        cases a with
        | list message => exact absurd rfl (hnl message)
        | number n => simp [midi_send, send_error_message]
        | str s => simp [midi_send, send_error_message]
        | empty => simp [midi_send, send_error_message]
        | other => simp [midi_send, send_error_message]
  · subst hargs
    have hconv := convert_bytes_bad v hv hbadv
    rcases hc : convert_bytes message with ⟨ob, msgs⟩
    rw [hc] at hconv
    cases ob with
    | some bs => simp at hconv
    | none =>
      constructor
      · simp [midi_send, hc]
      · simpa [midi_send, hc] using hconv.2

/-- Witness for C4: sending the list that contains 256 never reaches the
transport and reports a protocol error. -/
theorem spec_C4_witness :
    (midi_send false [KValue.list [KValue.number (KNumber.i64 256)]]).transport_attempts = [] ∧
    (midi_send false [KValue.list [KValue.number (KNumber.i64 256)]]).channel_msgs ≠ [] :=
  spec_C4 false [KValue.list [KValue.number (KNumber.i64 256)]]
    (Or.inr ⟨[KValue.number (KNumber.i64 256)], KValue.number (KNumber.i64 256),
      rfl, by simp, by decide⟩)

/-- C10: when the argument of midi.send is a list, the call always returns
the empty value to the script and never raises a runtime error into the
script; when the transport fails the failure is reported on the internal
error channel, never to the script. -/
theorem spec_C10 (transport_fails : Bool) (message : List KValue) :
    (midi_send transport_fails [KValue.list message]).ret = Except.ok KValue.empty ∧
    (transport_fails = true →
      (midi_send transport_fails [KValue.list message]).channel_msgs ≠ []) := by
  constructor
  · rcases hc : convert_bytes message with ⟨ob, msgs⟩
    cases ob <;> cases transport_fails <;> simp [midi_send, hc]
  · intro htf
    subst htf
    rcases hc : convert_bytes message with ⟨ob, msgs⟩
    cases ob with
    | some bs => simp [midi_send, hc, send_failure_message]
    | none =>
      have hmsgs : msgs ≠ [] := by
        have h1 : (convert_bytes message).1 = none := by rw [hc]
        have := convert_bytes_none_msgs h1
        rw [hc] at this
        exact this
      simpa [midi_send, hc] using hmsgs

/-- Witness for C10: a list argument where the transport would fail still
returns the empty value into the script and reports on the channel. -/
theorem spec_C10_witness :
    (midi_send true [KValue.list [KValue.number (KNumber.i64 144)]]).ret =
      Except.ok KValue.empty ∧
    (midi_send true [KValue.list [KValue.number (KNumber.i64 144)]]).channel_msgs ≠ [] :=
  ⟨(spec_C10 true [KValue.number (KNumber.i64 144)]).1,
   (spec_C10 true [KValue.number (KNumber.i64 144)]).2 rfl⟩

/-! ## Compile-Run Engine (compile_run_block_until_valid, src/mep/src/main.rs:679) -/

/-- Outcome of one call of the engine: success, blocked forever inside the
recovery recv loop (the pending watcher events ran out without a fix), or an
io error propagated out by the reread of a written file. -/
inductive EOutcome
  | ok
  | blocked
  | ioErr
deriving Repr, DecidableEq

/-- Result of one engine call: session and runtime after the call, the
chronological trace of observable actions, the watcher events left
unconsumed, and the outcome. -/
structure EngineResult where
  ctx : Context
  rt : Koto
  trace : List Action
  events : List WatcherToMainMessage
  outcome : EOutcome
deriving Repr, DecidableEq

/-- The blocking recovery wait: `loop { if let Ok(NoticeWrite(path)) =
from_watcher.recv() { ... } }` consumes events in order, discarding every
event that is not a NoticeWrite, and resumes at the first NoticeWrite of
any path. Returns that path and the events remaining after it. -/
def findWrite : List WatcherToMainMessage → Option (String × List WatcherToMainMessage)
  | [] => none
  | WatcherToMainMessage.noticeWrite p :: rest => some (p, rest)
  | _ :: rest => findWrite rest

/-- Embedding of compile_run_block_until_valid with explicit fuel for the
recursion (each retry consumes at least one watcher event, so any fuel
above the event count is equivalent). Compile the current script; on
success run its top level, recording the run invocation and loading the
program into the runtime; on compile or run failure report the error and
block for the next NoticeWrite of any path, reread that path into the
session and retry. Exhausted events model the blocking wait with no fix
forthcoming. -/
def crbuvF (lo : LangOracle) (fsys : FS) :
    Nat → Context → Koto → List WatcherToMainMessage → EngineResult
  | 0, ctx, rt, events => ⟨ctx, rt, [], events, EOutcome.blocked⟩
  | Nat.succ fuel, ctx, rt, events =>
    if lo.compiles ctx.chosen_script then
      if lo.runs ctx.chosen_script then
        ⟨ctx, { rt with loaded := some ctx.chosen_script },
          [Action.runInvoked ctx.chosen_script], events, EOutcome.ok⟩
      else
        match findWrite events with
        | none =>
          ⟨ctx, rt, [Action.runInvoked ctx.chosen_script,
            Action.showError ctx.chosen_script_path], [], EOutcome.blocked⟩
        | some (p, rest) =>
          match readToString fsys p with
          | none =>
            ⟨{ ctx with chosen_script_path := p }, rt,
              [Action.runInvoked ctx.chosen_script,
               Action.showError ctx.chosen_script_path], rest, EOutcome.ioErr⟩
          | some src =>
            let r := crbuvF lo fsys fuel
              { ctx with chosen_script_path := p, chosen_script := src } rt rest
            { r with trace := Action.runInvoked ctx.chosen_script ::
                Action.showError ctx.chosen_script_path :: r.trace }
    else
      match findWrite events with
      | none =>
        ⟨ctx, rt, [Action.showError ctx.chosen_script_path], [], EOutcome.blocked⟩
      | some (p, rest) =>
        match readToString fsys p with
        | none =>
          ⟨{ ctx with chosen_script_path := p }, rt,
            [Action.showError ctx.chosen_script_path], rest, EOutcome.ioErr⟩
        | some src =>
          let r := crbuvF lo fsys fuel
            { ctx with chosen_script_path := p, chosen_script := src } rt rest
          { r with trace := Action.showError ctx.chosen_script_path :: r.trace }

/-- Embedding of compile_run_block_until_valid: fuel one above the number
of pending events always suffices, because each retry consumes at least the
NoticeWrite event it acts on. -/
def compile_run_block_until_valid (lo : LangOracle) (fsys : FS)
    (ctx : Context) (rt : Koto) (events : List WatcherToMainMessage) : EngineResult :=
  crbuvF lo fsys (events.length + 1) ctx rt events

/-! ## Engine lemmas -/

theorem findWrite_length {events rest : List WatcherToMainMessage} {p : String}
    (h : findWrite events = some (p, rest)) : rest.length < events.length := by
  induction events with
  | nil => simp [findWrite] at h
  | cons e tail ih =>
    cases e with
    | noticeWrite q =>
      simp [findWrite] at h
      rw [h.2]
      simp only [List.length_cons]
      omega
    | noticeRemove q =>
      simp only [findWrite] at h
      have := ih h
      simp only [List.length_cons]
      omega
    | create q =>
      simp only [findWrite] at h
      have := ih h
      simp only [List.length_cons]
      omega
    | werror q =>
      simp only [findWrite] at h
      have := ih h
      simp only [List.length_cons]
      omega

theorem findWrite_mem {events rest : List WatcherToMainMessage} {p : String}
    (h : findWrite events = some (p, rest)) :
    WatcherToMainMessage.noticeWrite p ∈ events := by
  induction events with
  | nil => simp [findWrite] at h
  | cons e tail ih =>
    cases e with
    | noticeWrite q =>
      simp [findWrite] at h
      simp [h.1]
    | noticeRemove q => simp only [findWrite] at h; simp [ih h]
    | create q => simp only [findWrite] at h; simp [ih h]
    | werror q => simp only [findWrite] at h; simp [ih h]

theorem findWrite_subset {events rest : List WatcherToMainMessage} {p : String}
    (h : findWrite events = some (p, rest)) : ∀ e ∈ rest, e ∈ events := by
  induction events with
  | nil => simp [findWrite] at h
  | cons e tail ih =>
    cases e with
    | noticeWrite q =>
      simp [findWrite] at h
      intro x hx
      rw [← h.2] at hx
      simp [hx]
    | noticeRemove q =>
      simp only [findWrite] at h
      intro x hx
      simp [ih h x hx]
    | create q =>
      simp only [findWrite] at h
      intro x hx
      simp [ih h x hx]
    | werror q =>
      simp only [findWrite] at h
      intro x hx
      simp [ih h x hx]

theorem findWrite_eq_none {events : List WatcherToMainMessage}
    (h : ∀ q, WatcherToMainMessage.noticeWrite q ∉ events) :
    findWrite events = none := by
  induction events with
  | nil => simp [findWrite]
  | cons e tail ih =>
    cases e with
    | noticeWrite q => exact absurd (by simp) (h q)
    | noticeRemove q =>
      simp only [findWrite]
      exact ih (fun q hq => h q (by simp [hq]))
    | create q =>
      simp only [findWrite]
      exact ih (fun q hq => h q (by simp [hq]))
    | werror q =>
      simp only [findWrite]
      exact ih (fun q hq => h q (by simp [hq]))

theorem crbuvF_trace_runs (lo : LangOracle) (fsys : FS) :
    ∀ (fuel : Nat) (ctx : Context) (rt : Koto) (events : List WatcherToMainMessage)
      (s : String),
    Action.runInvoked s ∈ (crbuvF lo fsys fuel ctx rt events).trace →
    lo.compiles s = true := by
  intro fuel
  induction fuel with
  | zero =>
    intro ctx rt events s h
    simp [crbuvF] at h
  | succ fuel ih =>
    intro ctx rt events s h
    by_cases hc : lo.compiles ctx.chosen_script
    · by_cases hr : lo.runs ctx.chosen_script
      · simp [crbuvF, hc, hr] at h
        rw [h]; exact hc
      · rcases hw : findWrite events with _ | ⟨p, rest⟩
        · simp [crbuvF, hc, hr, hw] at h
          rw [h]; exact hc
        · rcases hrd : readToString fsys p with _ | src
          · simp [crbuvF, hc, hr, hw, hrd] at h
            rw [h]; exact hc
          · simp [crbuvF, hc, hr, hw, hrd] at h
            rcases h with h | h
            · rw [h]; exact hc
            · exact ih _ _ _ _ h
    · rcases hw : findWrite events with _ | ⟨p, rest⟩
      · simp [crbuvF, hc, hw] at h
      · rcases hrd : readToString fsys p with _ | src
        · simp [crbuvF, hc, hw, hrd] at h
        · simp [crbuvF, hc, hw, hrd] at h
          exact ih _ _ _ _ h

theorem crbuvF_ok_state (lo : LangOracle) (fsys : FS) :
    ∀ (fuel : Nat) (ctx : Context) (rt : Koto) (events : List WatcherToMainMessage),
    (crbuvF lo fsys fuel ctx rt events).outcome = EOutcome.ok →
    (crbuvF lo fsys fuel ctx rt events).rt.loaded =
      some (crbuvF lo fsys fuel ctx rt events).ctx.chosen_script ∧
    lo.compiles (crbuvF lo fsys fuel ctx rt events).ctx.chosen_script = true ∧
    lo.runs (crbuvF lo fsys fuel ctx rt events).ctx.chosen_script = true := by
  intro fuel
  induction fuel with
  | zero =>
    intro ctx rt events h
    simp [crbuvF] at h
  | succ fuel ih =>
    intro ctx rt events h
    by_cases hc : lo.compiles ctx.chosen_script
    · by_cases hr : lo.runs ctx.chosen_script
      · simp [crbuvF, hc, hr]
      · rcases hw : findWrite events with _ | ⟨p, rest⟩
        · simp [crbuvF, hc, hr, hw] at h
        · rcases hrd : readToString fsys p with _ | src
          · simp [crbuvF, hc, hr, hw, hrd] at h
          · simp only [crbuvF, hc, hr, hw, hrd, if_true, if_false] at h ⊢
            simpa using ih _ _ _ (by simpa using h)
    · rcases hw : findWrite events with _ | ⟨p, rest⟩
      · simp [crbuvF, hc, hw] at h
      · rcases hrd : readToString fsys p with _ | src
        · simp [crbuvF, hc, hw, hrd] at h
        · simp only [crbuvF, hc, hw, hrd, if_false] at h ⊢
          simpa using ih _ _ _ (by simpa using h)

theorem crbuvF_not_ok_rt (lo : LangOracle) (fsys : FS) :
    ∀ (fuel : Nat) (ctx : Context) (rt : Koto) (events : List WatcherToMainMessage),
    (crbuvF lo fsys fuel ctx rt events).outcome ≠ EOutcome.ok →
    (crbuvF lo fsys fuel ctx rt events).rt = rt := by
  intro fuel
  induction fuel with
  | zero =>
    intro ctx rt events _
    simp [crbuvF]
  | succ fuel ih =>
    intro ctx rt events h
    by_cases hc : lo.compiles ctx.chosen_script
    · by_cases hr : lo.runs ctx.chosen_script
      · simp [crbuvF, hc, hr] at h
      · rcases hw : findWrite events with _ | ⟨p, rest⟩
        · simp [crbuvF, hc, hr, hw]
        · rcases hrd : readToString fsys p with _ | src
          · simp [crbuvF, hc, hr, hw, hrd]
          · simp only [crbuvF, hc, hr, hw, hrd, if_true, if_false] at h ⊢
            exact ih _ _ _ (by simpa using h)
    · rcases hw : findWrite events with _ | ⟨p, rest⟩
      · simp [crbuvF, hc, hw]
      · rcases hrd : readToString fsys p with _ | src
        · simp [crbuvF, hc, hw, hrd]
        · simp only [crbuvF, hc, hw, hrd, if_false] at h ⊢
          exact ih _ _ _ (by simpa using h)

theorem crbuvF_ctx_stable (lo : LangOracle) (fsys : FS) :
    ∀ (fuel : Nat) (ctx : Context) (rt : Koto) (events : List WatcherToMainMessage),
    (crbuvF lo fsys fuel ctx rt events).ctx.available_scripts = ctx.available_scripts ∧
    (crbuvF lo fsys fuel ctx rt events).ctx.chosen_index_checked = ctx.chosen_index_checked ∧
    (crbuvF lo fsys fuel ctx rt events).ctx.scripts_folder_path = ctx.scripts_folder_path := by
  intro fuel
  induction fuel with
  | zero =>
    intro ctx rt events
    simp [crbuvF]
  | succ fuel ih =>
    intro ctx rt events
    by_cases hc : lo.compiles ctx.chosen_script
    · by_cases hr : lo.runs ctx.chosen_script
      · simp [crbuvF, hc, hr]
      · rcases hw : findWrite events with _ | ⟨p, rest⟩
        · simp [crbuvF, hc, hr, hw]
        · rcases hrd : readToString fsys p with _ | src
          · simp [crbuvF, hc, hr, hw, hrd]
          · simp only [crbuvF, hc, hr, hw, hrd, if_true, if_false]
            simpa using ih _ _ _
    · rcases hw : findWrite events with _ | ⟨p, rest⟩
      · simp [crbuvF, hc, hw]
      · rcases hrd : readToString fsys p with _ | src
        · simp [crbuvF, hc, hw, hrd]
        · simp only [crbuvF, hc, hw, hrd, if_false]
          simpa using ih _ _ _

theorem crbuvF_ok_source (lo : LangOracle) (fsys : FS) :
    ∀ (fuel : Nat) (ctx : Context) (rt : Koto) (events : List WatcherToMainMessage),
    (crbuvF lo fsys fuel ctx rt events).outcome = EOutcome.ok →
    ((crbuvF lo fsys fuel ctx rt events).ctx.chosen_script = ctx.chosen_script ∧
     (crbuvF lo fsys fuel ctx rt events).ctx.chosen_script_path = ctx.chosen_script_path) ∨
    (WatcherToMainMessage.noticeWrite
        (crbuvF lo fsys fuel ctx rt events).ctx.chosen_script_path ∈ events ∧
     readToString fsys (crbuvF lo fsys fuel ctx rt events).ctx.chosen_script_path =
        some (crbuvF lo fsys fuel ctx rt events).ctx.chosen_script) := by
  intro fuel
  induction fuel with
  | zero =>
    intro ctx rt events h
    simp [crbuvF] at h
  | succ fuel ih =>
    intro ctx rt events h
    by_cases hc : lo.compiles ctx.chosen_script
    · by_cases hr : lo.runs ctx.chosen_script
      · simp [crbuvF, hc, hr]
      · rcases hw : findWrite events with _ | ⟨p, rest⟩
        · simp [crbuvF, hc, hr, hw] at h
        · rcases hrd : readToString fsys p with _ | src
          · simp [crbuvF, hc, hr, hw, hrd] at h
          · have h' : (crbuvF lo fsys fuel
                { ctx with chosen_script_path := p, chosen_script := src }
                rt rest).outcome = EOutcome.ok := by
              simp only [crbuvF, hc, hr, hw, hrd, if_true, if_false] at h
              simpa using h
            have hctx : (crbuvF lo fsys (fuel + 1) ctx rt events).ctx =
                (crbuvF lo fsys fuel
                  { ctx with chosen_script_path := p, chosen_script := src }
                  rt rest).ctx := by
              simp [crbuvF, hc, hr, hw, hrd]
            rw [hctx]
            rcases ih _ _ _ h' with ⟨h1, h2⟩ | ⟨h1, h2⟩
            · rw [h1, h2]
              exact Or.inr ⟨by simpa using findWrite_mem hw, by simpa using hrd⟩
            · exact Or.inr ⟨findWrite_subset hw _ h1, h2⟩
    · rcases hw : findWrite events with _ | ⟨p, rest⟩
      · simp [crbuvF, hc, hw] at h
      · rcases hrd : readToString fsys p with _ | src
        · simp [crbuvF, hc, hw, hrd] at h
        · have h' : (crbuvF lo fsys fuel
              { ctx with chosen_script_path := p, chosen_script := src }
              rt rest).outcome = EOutcome.ok := by
            simp only [crbuvF, hc, hw, hrd, if_false] at h
            simpa using h
          have hctx : (crbuvF lo fsys (fuel + 1) ctx rt events).ctx =
              (crbuvF lo fsys fuel
                { ctx with chosen_script_path := p, chosen_script := src }
                rt rest).ctx := by
            simp [crbuvF, hc, hw, hrd]
          rw [hctx]
          rcases ih _ _ _ h' with ⟨h1, h2⟩ | ⟨h1, h2⟩
          · rw [h1, h2]
            exact Or.inr ⟨by simpa using findWrite_mem hw, by simpa using hrd⟩
          · exact Or.inr ⟨findWrite_subset hw _ h1, h2⟩

theorem crbuvF_failure_reports (lo : LangOracle) (fsys : FS) (fuel : Nat)
    (ctx : Context) (rt : Koto) (events : List WatcherToMainMessage)
    (h : lo.compiles ctx.chosen_script = false ∨ lo.runs ctx.chosen_script = false) :
    Action.showError ctx.chosen_script_path ∈
      (crbuvF lo fsys (fuel + 1) ctx rt events).trace := by
  by_cases hc : lo.compiles ctx.chosen_script
  · have hr : lo.runs ctx.chosen_script = false := by
      rcases h with h | h
      · rw [h] at hc; cases hc
      · exact h
    rcases hw : findWrite events with _ | ⟨p, rest⟩
    · simp [crbuvF, hc, hr, hw]
    · rcases hrd : readToString fsys p with _ | src
      · simp [crbuvF, hc, hr, hw, hrd]
      · simp [crbuvF, hc, hr, hw, hrd]
  · rcases hw : findWrite events with _ | ⟨p, rest⟩
    · simp [crbuvF, hc, hw]
    · rcases hrd : readToString fsys p with _ | src
      · simp [crbuvF, hc, hw, hrd]
      · simp [crbuvF, hc, hw, hrd]

theorem crbuvF_no_write_blocked (lo : LangOracle) (fsys : FS) (fuel : Nat)
    (ctx : Context) (rt : Koto) (events : List WatcherToMainMessage)
    (hfail : lo.compiles ctx.chosen_script = false ∨ lo.runs ctx.chosen_script = false)
    (hw : findWrite events = none) :
    (crbuvF lo fsys (fuel + 1) ctx rt events).outcome = EOutcome.blocked := by
  by_cases hc : lo.compiles ctx.chosen_script
  · have hr : lo.runs ctx.chosen_script = false := by
      rcases hfail with h | h
      · rw [h] at hc; cases hc
      · exact h
    simp [crbuvF, hc, hr, hw]
  · simp [crbuvF, hc, hw]

/-! ## Claims C1 and C2 -/

/-- C1: across one engine call, the run phase is never entered for a source
whose compilation fails; on success the loaded program is exactly the
finally-active source, which compiles; and when the call does not succeed
the runtime keeps the previously loaded program unchanged. -/
theorem spec_C1 (lo : LangOracle) (fsys : FS) (ctx : Context) (rt : Koto)
    (events : List WatcherToMainMessage) :
    (∀ s, lo.compiles s = false →
      Action.runInvoked s ∉ (compile_run_block_until_valid lo fsys ctx rt events).trace) ∧
    ((compile_run_block_until_valid lo fsys ctx rt events).outcome = EOutcome.ok →
      (compile_run_block_until_valid lo fsys ctx rt events).rt.loaded =
        some (compile_run_block_until_valid lo fsys ctx rt events).ctx.chosen_script ∧
      lo.compiles
        (compile_run_block_until_valid lo fsys ctx rt events).ctx.chosen_script = true) ∧
    ((compile_run_block_until_valid lo fsys ctx rt events).outcome ≠ EOutcome.ok →
      (compile_run_block_until_valid lo fsys ctx rt events).rt = rt) := by
  refine ⟨?_, ?_, ?_⟩
  · intro s hs hmem
    have := crbuvF_trace_runs lo fsys _ _ _ _ s hmem
    rw [hs] at this
    cases this
  · intro h
    have := crbuvF_ok_state lo fsys _ _ _ _ h
    exact ⟨this.1, this.2.1⟩
  · intro h
    exact crbuvF_not_ok_rt lo fsys _ _ _ _ h

/-- Oracle for which only the source text bad fails to compile. -/
def oracle_a : LangOracle := { compiles := fun s => s != "bad", runs := fun _ => true }

/-- A runtime that currently holds a previously loaded program. -/
def rt_prev : Koto := { loaded := some "prev" }

/-- Session whose active script a.koto currently holds a broken source. -/
def ctx_broken : Context :=
  { scripts_folder_path := "/s"
    available_scripts := ["/s/a.koto", "/s/b.koto"]
    chosen_index_checked := 0
    chosen_script := "bad"
    chosen_script_path := "/s/a.koto" }

/-- Witness for C1: with the broken script active and no fix event, the run
phase is never invoked on the broken source and the runtime keeps the
previously loaded program. -/
theorem spec_C1_witness :
    Action.runInvoked "bad" ∉
      (compile_run_block_until_valid oracle_a [] ctx_broken rt_prev []).trace ∧
    (compile_run_block_until_valid oracle_a [] ctx_broken rt_prev []).rt = rt_prev := by
  have h := spec_C1 oracle_a [] ctx_broken rt_prev []
  exact ⟨h.1 "bad" (by decide), h.2.2 (by decide)⟩

/-- Filesystem where a.koto holds the broken source and b.koto a good one. -/
def fs_two : FS := [("/s/a.koto", "bad"), ("/s/b.koto", "good")]

/-- Counterexample to C2: while blocked on the compile failure of the
active script a.koto, a NoticeWrite for the DIFFERENT script b.koto ends
the wait, and the engine rereads and adopts b.koto, succeeding with the
active path switched away from a.koto. The claim asserts that events for
other script files do not end the wait and that the engine rereads the same
active file. -/
theorem spec_C2_counterexample :
    (compile_run_block_until_valid oracle_a fs_two ctx_broken rt_prev
      [WatcherToMainMessage.noticeWrite "/s/b.koto"]).outcome = EOutcome.ok ∧
    (compile_run_block_until_valid oracle_a fs_two ctx_broken rt_prev
      [WatcherToMainMessage.noticeWrite "/s/b.koto"]).ctx.chosen_script_path = "/s/b.koto" ∧
    (compile_run_block_until_valid oracle_a fs_two ctx_broken rt_prev
      [WatcherToMainMessage.noticeWrite "/s/b.koto"]).ctx.chosen_script = "good" ∧
    ctx_broken.chosen_script_path ≠ "/s/b.koto" := by
  decide

/-- C2 amended: on a compile (or top-level run) failure the engine reports
the error and blocks waiting for the next NoticeWrite event of ANY script
path, not only the active one; non-write events never end the wait (with no
write pending the engine stays blocked and the runtime keeps the previous
program); on a write the engine rereads the WRITTEN path into the session
and retries, in an unbounded loop until success, so on success the
finally-active script arrived through some NoticeWrite event, reads from
its recorded path, compiles, runs, and is the loaded program. -/
theorem spec_C2 (lo : LangOracle) (fsys : FS) (ctx : Context) (rt : Koto)
    (events : List WatcherToMainMessage)
    (hfail : lo.compiles ctx.chosen_script = false ∨ lo.runs ctx.chosen_script = false) :
    Action.showError ctx.chosen_script_path ∈
      (compile_run_block_until_valid lo fsys ctx rt events).trace ∧
    ((∀ q, WatcherToMainMessage.noticeWrite q ∉ events) →
      (compile_run_block_until_valid lo fsys ctx rt events).outcome = EOutcome.blocked ∧
      (compile_run_block_until_valid lo fsys ctx rt events).rt = rt) ∧
    ((compile_run_block_until_valid lo fsys ctx rt events).outcome = EOutcome.ok →
      WatcherToMainMessage.noticeWrite
        (compile_run_block_until_valid lo fsys ctx rt events).ctx.chosen_script_path ∈
          events ∧
      readToString fsys
        (compile_run_block_until_valid lo fsys ctx rt events).ctx.chosen_script_path =
        some (compile_run_block_until_valid lo fsys ctx rt events).ctx.chosen_script ∧
      lo.compiles
        (compile_run_block_until_valid lo fsys ctx rt events).ctx.chosen_script = true ∧
      lo.runs
        (compile_run_block_until_valid lo fsys ctx rt events).ctx.chosen_script = true ∧
      (compile_run_block_until_valid lo fsys ctx rt events).rt.loaded =
        some (compile_run_block_until_valid lo fsys ctx rt events).ctx.chosen_script) := by
  refine ⟨?_, ?_, ?_⟩
  · exact crbuvF_failure_reports lo fsys events.length ctx rt events hfail
  · intro hnw
    have hb := crbuvF_no_write_blocked lo fsys events.length ctx rt events hfail
      (findWrite_eq_none hnw)
    refine ⟨hb, ?_⟩
    apply crbuvF_not_ok_rt
    rw [hb]
    intro hcontra
    cases hcontra
  · intro hok
    have hstate := crbuvF_ok_state lo fsys _ _ _ _ hok
    rcases crbuvF_ok_source lo fsys _ _ _ _ hok with ⟨h1, _⟩ | ⟨h1, h2⟩
    · exfalso
      rw [h1] at hstate
      rcases hfail with hf | hf
      · rw [hf] at hstate
        cases hstate.2.1
      · rw [hf] at hstate
        cases hstate.2.2
    · exact ⟨h1, h2, hstate.2.1, hstate.2.2, hstate.1⟩

/-- Witness for C2 amended: the broken script with only a non-write event
pending reports the error, stays blocked and keeps the previous program. -/
theorem spec_C2_witness :
    Action.showError "/s/a.koto" ∈
      (compile_run_block_until_valid oracle_a fs_two ctx_broken rt_prev
        [WatcherToMainMessage.create "/s/c.koto"]).trace ∧
    (compile_run_block_until_valid oracle_a fs_two ctx_broken rt_prev
      [WatcherToMainMessage.create "/s/c.koto"]).outcome = EOutcome.blocked ∧
    (compile_run_block_until_valid oracle_a fs_two ctx_broken rt_prev
      [WatcherToMainMessage.create "/s/c.koto"]).rt = rt_prev := by
  have h := spec_C2 oracle_a fs_two ctx_broken rt_prev
    [WatcherToMainMessage.create "/s/c.koto"] (Or.inl (by decide))
  have hnw := h.2.1 (by intro q hq; simp at hq)
  exact ⟨h.1, hnw.1, hnw.2⟩

/-! ## try_debug (src/mep/src/main.rs:558) -/

/-- Error results of try_debug: the bottom no-change error, the bail on an
empty catalog after a removal, the bail on a watcher error, and an io error
propagated by a file read. All of them are Err values that every caller in
the main loop discards with is_ok. -/
inductive TDErr
  | noChange
  | fatalEmpty
  | watchErr
  | ioErr
deriving Repr, DecidableEq

/-- Outcome of try_debug: Ok, one of the Err values, or blocked forever
inside a nested engine recovery wait. -/
inductive TDOutcome
  | ok
  | err (e : TDErr)
  | blocked
deriving Repr, DecidableEq

/-- Result of one try_debug call. -/
structure TDResult where
  ctx : Context
  rt : Koto
  trace : List Action
  events : List WatcherToMainMessage
  outcome : TDOutcome
deriving Repr, DecidableEq

/-- Embedding of the chosen-index update loop in the rename branch
(src/mep/src/main.rs:598): every matching position overwrites the index, so
the final value is the LAST matching position, or the accumulator when no
position matches. -/
def last_index_from (i : Nat) (target : String) : List String → Nat → Nat
  | [], acc => acc
  | p :: rest, acc => last_index_from (i + 1) target rest (if p == target then i else acc)

/-- The index left by the rename-branch enumeration loop, starting from the
current chosen index. -/
def last_index_of (target : String) (l : List String) (acc : Nat) : Nat :=
  last_index_from 0 target l acc

/-- Shared tail of the NoticeWrite and NoticeRemove branches of try_debug:
run the engine on the updated session, rendering the catalog on success; an
io error from inside the engine falls through to the bottom of try_debug,
which reports no change. -/
def run_after_update (lo : LangOracle) (fsys : FS) (ctx : Context) (rt : Koto)
    (events : List WatcherToMainMessage) : TDResult :=
  let r := compile_run_block_until_valid lo fsys ctx rt events
  match r.outcome with
  | EOutcome.ok =>
    ⟨r.ctx, r.rt, r.trace ++ [Action.render r.ctx.chosen_index_checked], r.events,
      TDOutcome.ok⟩
  | EOutcome.blocked => ⟨r.ctx, r.rt, r.trace, r.events, TDOutcome.blocked⟩
  | EOutcome.ioErr => ⟨r.ctx, r.rt, r.trace, r.events, TDOutcome.err TDErr.noChange⟩

/-- Embedding of try_debug: poll one watcher event; on NoticeWrite adopt
the written path and rerun; on NoticeRemove rebuild the catalog, compute
the concatenation of the paths new to the catalog (Rust collect of String
items into String), and either just rerender when the active script still
reads, treat the event as a rename when the concatenation reads, bail when
the rebuilt catalog is empty, or fall back to index 0; on Create rebuild
the catalog and rerender; on a watcher error bail. With no pending event,
report no change. -/
def try_debug (lo : LangOracle) (fsys : FS) (ctx : Context) (rt : Koto) :
    List WatcherToMainMessage → TDResult
  | [] => ⟨ctx, rt, [], [], TDOutcome.err TDErr.noChange⟩
  | ev :: rest =>
    match ev with
    | WatcherToMainMessage.noticeWrite p =>
      let ctx1 := { ctx with chosen_script_path := p }
      match readToString fsys p with
      | none => ⟨ctx1, rt, [], rest, TDOutcome.err TDErr.ioErr⟩
      | some src => run_after_update lo fsys { ctx1 with chosen_script := src } rt rest
    | WatcherToMainMessage.noticeRemove _ =>
      let new_scripts := collect_available_scripts fsys
      let modified_script_path := String.join
        (new_scripts.filter (fun item => !(ctx.available_scripts.contains item)))
      let ctx1 := { ctx with available_scripts := new_scripts }
      match readToString fsys ctx1.chosen_script_path with
      | some _ =>
        ⟨ctx1, rt, [Action.render ctx1.chosen_index_checked], rest, TDOutcome.ok⟩
      | none =>
        match readToString fsys modified_script_path with
        | some src =>
          run_after_update lo fsys
            { ctx1 with
              chosen_script := src,
              chosen_script_path := modified_script_path,
              chosen_index_checked :=
                last_index_of modified_script_path new_scripts ctx1.chosen_index_checked }
            rt rest
        | none =>
          match ctx1.available_scripts with
          | [] => ⟨ctx1, rt, [Action.clearLines], rest, TDOutcome.err TDErr.fatalEmpty⟩
          | first :: _ =>
            match readToString fsys first with
            | none => ⟨ctx1, rt, [], rest, TDOutcome.err TDErr.ioErr⟩
            | some src =>
              run_after_update lo fsys
                { ctx1 with
                  chosen_script := src,
                  chosen_script_path := first,
                  chosen_index_checked := 0 } rt rest
    | WatcherToMainMessage.create _ =>
      let new_scripts := collect_available_scripts fsys
      ⟨{ ctx with available_scripts := new_scripts }, rt,
        [Action.render ctx.chosen_index_checked], rest, TDOutcome.ok⟩
    | WatcherToMainMessage.werror _ =>
      ⟨ctx, rt, [Action.clearLines], rest, TDOutcome.err TDErr.watchErr⟩

/-! ## Listener invocation (call_midi_listen_with, src/mep/src/main.rs:474) -/

/-- Shape of the midi.listen lookup in the prelude of the loaded program:
the midi import may be missing or shadowed, listen may be undefined, not a
function, or a callable function. -/
inductive LShape
  | missingMidi
  | midiNotMap
  | listenAbsent
  | listenNotFun
  | listenFn
deriving Repr, DecidableEq

/-- Listener oracle: the shape of midi.listen for a given loaded program,
and whether calling it on a given message succeeds. Both belong to the
opaque language runtime. -/
structure ListenOracle where
  shape : Option String → LShape
  listenOk : Option String → List Nat → Bool

/-- The two error families of call_midi_listen_with: structural errors (no
midi map, not a map, listen absent or not a function; no call happens) and
invocation errors (the call itself fails). -/
inductive ListenErr
  | structural
  | invocation
deriving Repr, DecidableEq

/-- Embedding of call_midi_listen_with: only the callable-function shape
invokes the listener; every other shape returns a structural error without
invoking anything. -/
def call_midi_listen_with (li : ListenOracle) (message : List Nat) (rt : Koto) :
    Except ListenErr Unit × List Action :=
  match li.shape rt.loaded with
  | LShape.listenFn =>
    if li.listenOk rt.loaded message then (Except.ok (), [Action.listenInvoked message])
    else (Except.error ListenErr.invocation, [Action.listenInvoked message])
  | _ => (Except.error ListenErr.structural, [])

/-! ## Main loop iteration (src/mep/src/main.rs:364) -/

/-- Result of the non-blocking stdin poll. -/
inductive StdinPoll
  | received (line : String)
  | empty
  | disconnected

/-- Outcome of one main-loop iteration: continue looping, terminate the
process by propagating an error out of main, die on an index panic, or
block forever inside a recovery wait. -/
inductive IterOutcome
  | next
  | exits
  | panics
  | blocked
deriving Repr, DecidableEq

/-- Result of one main-loop iteration. -/
structure IterResult where
  ctx : Context
  rt : Koto
  trace : List Action
  events : List WatcherToMainMessage
  outcome : IterOutcome
deriving Repr, DecidableEq

/-- Rust ascii whitespace as trimmed by str::trim on the inputs involved. -/
def is_ascii_whitespace (c : Char) : Bool :=
  c == ' ' || c == '\n' || c == '\t' || c == '\r'

/-- Drop leading and trailing whitespace from a character list. -/
def trim_chars (l : List Char) : List Char :=
  ((l.dropWhile is_ascii_whitespace).reverse.dropWhile is_ascii_whitespace).reverse

/-- Embedding of choice.trim().parse::<usize>(): after trimming, a nonempty
all-digit string parses to a number; anything else (including a negative
number) is a parse error. -/
def parse_usize (s : String) : Option Nat :=
  let cs := trim_chars s.data
  if !cs.isEmpty && cs.all Char.isDigit then
    some (cs.foldl (fun acc c => acc * 10 + (c.toNat - 48)) 0)
  else none

/-- Embedding of the user-selection branch of the main loop
(src/mep/src/main.rs:397). Faithful to the source: the range guard compares
the STARTUP local chosen_index_checked against the startup max_idx, not the
freshly parsed index, and the parsed index is stored into the session
BEFORE any check; an out-of-range parsed index then panics when the catalog
is indexed. -/
def selection_step (lo : LangOracle) (fsys : FS) (startup_choice max_idx : Nat)
    (ctx : Context) (rt : Koto) (events : List WatcherToMainMessage)
    (input : String) : IterResult :=
  match parse_usize input with
  | none => ⟨ctx, rt, [Action.ignoreChoice], events, IterOutcome.next⟩
  | some idx =>
    let ctx1 := { ctx with chosen_index_checked := idx }
    if startup_choice > max_idx then
      ⟨ctx1, rt, [Action.ignoreChoice], events, IterOutcome.next⟩
    else if h : idx < ctx1.available_scripts.length then
      let path := ctx1.available_scripts[idx]
      let ctx2 := { ctx1 with chosen_script_path := path }
      match readToString fsys path with
      | none => ⟨ctx2, rt, [], events, IterOutcome.exits⟩
      | some src =>
        let r := compile_run_block_until_valid lo fsys
          { ctx2 with chosen_script := src } rt events
        match r.outcome with
        | EOutcome.ok =>
          ⟨r.ctx, r.rt, r.trace ++ [Action.render r.ctx.chosen_index_checked],
            r.events, IterOutcome.next⟩
        | EOutcome.blocked => ⟨r.ctx, r.rt, r.trace, r.events, IterOutcome.blocked⟩
        | EOutcome.ioErr => ⟨r.ctx, r.rt, r.trace, r.events, IterOutcome.exits⟩
    else ⟨ctx1, rt, [], events, IterOutcome.panics⟩

/-- Embedding of the stdin arm of the main loop: a received line runs the
selection logic; an empty poll attempts try_debug and continues regardless
of its Ok or Err result; a disconnected channel bails out of main. -/
def dispatch_stdin (lo : LangOracle) (fsys : FS) (startup_choice max_idx : Nat)
    (ctx : Context) (rt : Koto) (events : List WatcherToMainMessage)
    (stdin_poll : StdinPoll) : IterResult :=
  match stdin_poll with
  | StdinPoll.received line =>
    selection_step lo fsys startup_choice max_idx ctx rt events line
  | StdinPoll.empty =>
    let td := try_debug lo fsys ctx rt events
    match td.outcome with
    | TDOutcome.blocked => ⟨td.ctx, td.rt, td.trace, td.events, IterOutcome.blocked⟩
    | _ => ⟨td.ctx, td.rt, td.trace, td.events, IterOutcome.next⟩
  | StdinPoll.disconnected => ⟨ctx, rt, [], events, IterOutcome.exits⟩

/-- Embedding of the outbound-send-error arm of the main loop: a pending
error message is shown and try_debug attempted; when try_debug fails the
iteration falls through to the stdin arm. -/
def dispatch_send_errors (lo : LangOracle) (fsys : FS) (startup_choice max_idx : Nat)
    (ctx : Context) (rt : Koto) (events : List WatcherToMainMessage)
    (send_err : Option String) (stdin_poll : StdinPoll) : IterResult :=
  match send_err with
  | none => dispatch_stdin lo fsys startup_choice max_idx ctx rt events stdin_poll
  | some _ =>
    let td := try_debug lo fsys ctx rt events
    match td.outcome with
    | TDOutcome.ok =>
      ⟨td.ctx, td.rt, Action.showError ctx.chosen_script_path :: td.trace, td.events,
        IterOutcome.next⟩
    | TDOutcome.blocked =>
      ⟨td.ctx, td.rt, Action.showError ctx.chosen_script_path :: td.trace, td.events,
        IterOutcome.blocked⟩
    | TDOutcome.err _ =>
      let b := dispatch_stdin lo fsys startup_choice max_idx td.ctx td.rt td.events
        stdin_poll
      { b with trace := Action.showError ctx.chosen_script_path :: td.trace ++ b.trace }

/-- Embedding of one iteration of the main loop: drain one inbound MIDI
message and invoke the listener, on error show it and attempt try_debug,
falling through to the send-error arm when try_debug fails; then the
send-error arm; then the stdin arm. -/
def main_loop_iter (lo : LangOracle) (li : ListenOracle) (fsys : FS)
    (startup_choice max_idx : Nat) (ctx : Context) (rt : Koto)
    (events : List WatcherToMainMessage) (midi_in : Option (List Nat))
    (send_err : Option String) (stdin_poll : StdinPoll) : IterResult :=
  match midi_in with
  | none =>
    dispatch_send_errors lo fsys startup_choice max_idx ctx rt events send_err stdin_poll
  | some message =>
    match call_midi_listen_with li message rt with
    | (Except.ok _, acts) => ⟨ctx, rt, acts, events, IterOutcome.next⟩
    | (Except.error _, acts) =>
      let td := try_debug lo fsys ctx rt events
      match td.outcome with
      | TDOutcome.ok =>
        ⟨td.ctx, td.rt, acts ++ Action.showError ctx.chosen_script_path :: td.trace,
          td.events, IterOutcome.next⟩
      | TDOutcome.blocked =>
        ⟨td.ctx, td.rt, acts ++ Action.showError ctx.chosen_script_path :: td.trace,
          td.events, IterOutcome.blocked⟩
      | TDOutcome.err _ =>
        let b := dispatch_send_errors lo fsys startup_choice max_idx td.ctx td.rt
          td.events send_err stdin_poll
        { b with trace :=
            acts ++ Action.showError ctx.chosen_script_path :: td.trace ++ b.trace }

/-! ## Claims C3 and C5 -/

/-- Listener oracle whose listener is always a callable function that
succeeds. -/
def li_fn : ListenOracle :=
  { shape := fun _ => LShape.listenFn, listenOk := fun _ _ => true }

/-- C3 is a code bug: with the two-script catalog and startup selection 0
(so startup max_idx is 1), the out-of-range input 5 parses, the guard
compares the STARTUP index 0 against max_idx 1 and does not fire, the
session active_index is overwritten with 5, and indexing the catalog then
panics. The claim says an out-of-range input is acknowledged and ignored
with no session field changed. -/
theorem spec_C3_bug :
    parse_usize "5\n" = some 5 ∧
    ¬(5 < ctx_broken.available_scripts.length) ∧
    (selection_step oracle_a fs_two 0 1 ctx_broken rt_prev [] "5\n").outcome =
      IterOutcome.panics ∧
    (selection_step oracle_a fs_two 0 1 ctx_broken rt_prev [] "5\n").ctx.chosen_index_checked
      = 5 := by
  decide

/-- A session whose catalog holds exactly one script, the active one. -/
def ctx_last : Context :=
  { scripts_folder_path := "/s"
    available_scripts := ["/s/a.koto"]
    chosen_index_checked := 0
    chosen_script := "A"
    chosen_script_path := "/s/a.koto" }

/-- C5 is a code bug in its termination half: when the last remaining
script is removed (empty filesystem, NoticeRemove pending), try_debug does
produce the fatal empty-catalog error, but every caller discards it with
is_ok, so the iteration outcome is next — the process keeps looping instead
of terminating with the user-visible message. -/
theorem spec_C5_bug :
    (try_debug oracle_a [] ctx_last rt_prev
      [WatcherToMainMessage.noticeRemove "/s/a.koto"]).outcome =
      TDOutcome.err TDErr.fatalEmpty ∧
    (main_loop_iter oracle_a li_fn [] 0 0 ctx_last rt_prev
      [WatcherToMainMessage.noticeRemove "/s/a.koto"] none none
      StdinPoll.empty).outcome = IterOutcome.next ∧
    (main_loop_iter oracle_a li_fn [] 0 0 ctx_last rt_prev
      [WatcherToMainMessage.noticeRemove "/s/a.koto"] none none
      StdinPoll.empty).ctx.available_scripts = [] := by
  decide

/-! ## Claim C7 -/

/-- Filesystem after a.koto was deleted while b.koto remains. -/
def fs_only_b : FS := [("/s/b.koto", "B")]

/-- Session active on b.koto at index 1 of the two-script catalog. -/
def ctx_active_b : Context :=
  { scripts_folder_path := "/s"
    available_scripts := ["/s/a.koto", "/s/b.koto"]
    chosen_index_checked := 1
    chosen_script := "B"
    chosen_script_path := "/s/b.koto" }

/-- Counterexample to C7: removing the NON-active script a.koto (listed
before the active b.koto) rebuilds the catalog to the single entry b.koto
but leaves active_index at 1, so after this Removed-event mutation the
catalog is nonempty and active_index is NOT below its length. -/
theorem spec_C7_counterexample :
    (try_debug oracle_a fs_only_b ctx_active_b rt_prev
      [WatcherToMainMessage.noticeRemove "/s/a.koto"]).outcome = TDOutcome.ok ∧
    (try_debug oracle_a fs_only_b ctx_active_b rt_prev
      [WatcherToMainMessage.noticeRemove "/s/a.koto"]).ctx.available_scripts.length = 1 ∧
    (try_debug oracle_a fs_only_b ctx_active_b rt_prev
      [WatcherToMainMessage.noticeRemove "/s/a.koto"]).ctx.chosen_index_checked = 1 ∧
    ¬((try_debug oracle_a fs_only_b ctx_active_b rt_prev
        [WatcherToMainMessage.noticeRemove "/s/a.koto"]).ctx.chosen_index_checked <
      (try_debug oracle_a fs_only_b ctx_active_b rt_prev
        [WatcherToMainMessage.noticeRemove "/s/a.koto"]).ctx.available_scripts.length) := by
  decide

theorem last_index_from_not_mem (target : String) :
    ∀ (l : List String) (i acc : Nat), target ∉ l →
    last_index_from i target l acc = acc := by
  intro l
  induction l with
  | nil => intro i acc _; rfl
  | cons p rest ih =>
    intro i acc hnm
    have hp : ¬(p == target) = true := by
      intro hbeq
      apply hnm
      have hpt : p = target := by simpa using hbeq
      simp [hpt]
    simp only [last_index_from, Bool.not_eq_true] at hp ⊢
    rw [hp]
    exact ih (i + 1) acc (fun hm => hnm (by simp [hm]))

theorem last_index_from_bound (target : String) :
    ∀ (l : List String) (i acc : Nat), target ∈ l →
    last_index_from i target l acc < i + l.length := by
  intro l
  induction l with
  | nil => intro i acc hm; cases hm
  | cons p rest ih =>
    intro i acc hm
    by_cases hrest : target ∈ rest
    · have := ih (i + 1) (if p == target then i else acc) hrest
      simp only [last_index_from, List.length_cons]
      omega
    · have hp : p = target := by
        rcases List.mem_cons.mp hm with h | h
        · exact h.symm
        · exact absurd h hrest
      simp only [last_index_from, List.length_cons]
      rw [last_index_from_not_mem target rest (i + 1) _ hrest]
      simp [hp]

theorem last_index_of_bound (target : String) (l : List String) (acc : Nat)
    (hm : target ∈ l) : last_index_of target l acc < l.length := by
  have := last_index_from_bound target l 0 acc hm
  simpa [last_index_of] using this

theorem run_after_update_stable (lo : LangOracle) (fsys : FS) (ctx : Context)
    (rt : Koto) (events : List WatcherToMainMessage) :
    (run_after_update lo fsys ctx rt events).ctx.available_scripts =
      ctx.available_scripts ∧
    (run_after_update lo fsys ctx rt events).ctx.chosen_index_checked =
      ctx.chosen_index_checked := by
  have hstable := crbuvF_ctx_stable lo fsys (events.length + 1) ctx rt events
  unfold run_after_update compile_run_block_until_valid
  rcases houtcome : (crbuvF lo fsys (events.length + 1) ctx rt events).outcome
  all_goals
    simp only [compile_run_block_until_valid] at hstable ⊢
  all_goals
    rw [houtcome]
  all_goals
    exact ⟨hstable.1, hstable.2.1⟩

/-- C7 amended: the bound active_index < catalog.len() is reestablished by
a user reselection that completes without the out-of-range index panic
(given the startup selection was in range), and by the Removed-event
handling when the active script itself became unreadable (rename target
resolving to a catalog entry, or fallback to index 0); but catalog rebuilds
that keep the active script readable (Create events, and Removed of
another script) leave active_index untouched, so the bound can break there,
as the counterexample shows. -/
theorem spec_C7 (lo : LangOracle) (fsys : FS) (ctx : Context) (rt : Koto)
    (events : List WatcherToMainMessage) (startup_choice max_idx : Nat)
    (input : String) (q : String) (rest : List WatcherToMainMessage) :
    ((ctx.chosen_index_checked < ctx.available_scripts.length →
      startup_choice ≤ max_idx →
      (selection_step lo fsys startup_choice max_idx ctx rt events input).outcome ≠
        IterOutcome.panics →
      (selection_step lo fsys startup_choice max_idx ctx rt events input).ctx.chosen_index_checked <
        (selection_step lo fsys startup_choice max_idx ctx rt events input).ctx.available_scripts.length)) ∧
    (readToString fsys ctx.chosen_script_path = none →
      (∀ src, readToString fsys (String.join
          ((collect_available_scripts fsys).filter
            (fun item => !(ctx.available_scripts.contains item)))) = some src →
        String.join ((collect_available_scripts fsys).filter
          (fun item => !(ctx.available_scripts.contains item))) ∈
          collect_available_scripts fsys) →
      ((try_debug lo fsys ctx rt (WatcherToMainMessage.noticeRemove q :: rest)).outcome =
          TDOutcome.ok ∨
       (try_debug lo fsys ctx rt (WatcherToMainMessage.noticeRemove q :: rest)).outcome =
          TDOutcome.blocked) →
      (try_debug lo fsys ctx rt
        (WatcherToMainMessage.noticeRemove q :: rest)).ctx.chosen_index_checked <
      (try_debug lo fsys ctx rt
        (WatcherToMainMessage.noticeRemove q :: rest)).ctx.available_scripts.length) := by
  constructor
  · intro h0 h1 hnp
    unfold selection_step at hnp ⊢
    rcases hparse : parse_usize input with _ | idx
    · simpa [hparse] using h0
    · have hguard : ¬ (startup_choice > max_idx) := by omega
      simp only [hparse, hguard, if_false]
      by_cases hlt : idx < ctx.available_scripts.length
      · simp only [hlt, dif_pos]
        rcases hread : readToString fsys ctx.available_scripts[idx] with _ | src
        · simpa [hread] using hlt
        · simp only [hread]
          have hstable := crbuvF_ctx_stable lo fsys (events.length + 1)
            { ctx with
              chosen_index_checked := idx,
              chosen_script_path := ctx.available_scripts[idx],
              chosen_script := src } rt events
          rcases houtcome : (crbuvF lo fsys (events.length + 1)
            { ctx with
              chosen_index_checked := idx,
              chosen_script_path := ctx.available_scripts[idx],
              chosen_script := src } rt events).outcome
          all_goals
            simp only [compile_run_block_until_valid, houtcome] at hstable ⊢
          all_goals
            rw [hstable.1, hstable.2.1]
          all_goals
            simpa using hlt
      · exfalso
        apply hnp
        simp only [hparse, hguard, if_false] at hnp ⊢
        simp [hlt]
  · intro hactive hrename hok
    unfold try_debug at hok ⊢
    simp only [hactive] at hok ⊢
    rcases hmod : readToString fsys (String.join
        ((collect_available_scripts fsys).filter
          (fun item => !(ctx.available_scripts.contains item)))) with _ | src
    · simp only [hmod] at hok ⊢
      rcases hcat : collect_available_scripts fsys with _ | ⟨first, others⟩
      · simp only [hcat] at hok
        rcases hok with hok | hok
        · simp at hok
        · simp at hok
      · simp only [hcat] at hok ⊢
        rcases hfirst : readToString fsys first with _ | src0
        · simp only [hfirst] at hok
          rcases hok with hok | hok
          · simp at hok
          · simp at hok
        · simp only [hfirst] at hok ⊢
          have hstable := run_after_update_stable lo fsys
            { ctx with
              available_scripts := first :: others,
              chosen_script := src0,
              chosen_script_path := first,
              chosen_index_checked := 0 } rt rest
          rw [hstable.1, hstable.2]
          simp
    · simp only [hmod] at hok ⊢
      have hq : String.join ((collect_available_scripts fsys).filter
          (fun item => !(ctx.available_scripts.contains item))) ∈
          collect_available_scripts fsys := hrename src hmod
      have hstable := run_after_update_stable lo fsys
        { ctx with
          available_scripts := collect_available_scripts fsys,
          chosen_script := src,
          chosen_script_path := String.join ((collect_available_scripts fsys).filter
            (fun item => !(ctx.available_scripts.contains item))),
          chosen_index_checked := last_index_of
            (String.join ((collect_available_scripts fsys).filter
              (fun item => !(ctx.available_scripts.contains item))))
            (collect_available_scripts fsys) ctx.chosen_index_checked } rt rest
      rw [hstable.1, hstable.2]
      exact last_index_of_bound _ _ _ hq

/-- Witness for C7 amended: a completed in-range reselection and a
fallback after removal of the active script both land the index inside the
catalog. -/
theorem spec_C7_witness :
    (selection_step oracle_a fs_two 0 1 ctx_broken rt_prev [] "1").ctx.chosen_index_checked <
      (selection_step oracle_a fs_two 0 1 ctx_broken rt_prev [] "1").ctx.available_scripts.length ∧
    (try_debug oracle_a fs_only_b ctx_broken rt_prev
      [WatcherToMainMessage.noticeRemove "/s/a.koto"]).ctx.chosen_index_checked <
    (try_debug oracle_a fs_only_b ctx_broken rt_prev
      [WatcherToMainMessage.noticeRemove "/s/a.koto"]).ctx.available_scripts.length := by
  have h := spec_C7 oracle_a fs_two ctx_broken rt_prev [] 0 1 "1" "/s/a.koto" []
  have h2 := spec_C7 oracle_a fs_only_b ctx_broken rt_prev [] 0 1 "1" "/s/a.koto" []
  constructor
  · exact h.1 (by decide) (by decide) (by decide)
  · refine h2.2 (by decide) ?_ (Or.inl (by decide))
    intro src hsrc
    rw [show readToString fs_only_b (String.join
        ((collect_available_scripts fs_only_b).filter
          (fun item => !(ctx_broken.available_scripts.contains item)))) = none from by decide]
      at hsrc
    exact Option.noConfusion hsrc

/-! ## Claim C8 -/

/-- Session active on a.koto, with x.koto also listed. -/
def ctx_ax : Context :=
  { scripts_folder_path := "/s"
    available_scripts := ["/s/a.koto", "/s/x.koto"]
    chosen_index_checked := 0
    chosen_script := "A"
    chosen_script_path := "/s/a.koto" }

/-- Filesystem after a.koto disappeared while TWO new scripts b.koto and
c.koto appeared and x.koto remains. -/
def fs_two_new : FS := [("/s/x.koto", "X"), ("/s/b.koto", "B"), ("/s/c.koto", "C")]

/-- Counterexample to C8: the active a.koto no longer reads and the
readable path b.koto is new to the rebuilt catalog, so the claim demands
rename treatment (active path follows a new path, no fallback to index 0);
but with two new paths the source concatenates both into one unreadable
string, so the code falls back to index 0 and the old path x.koto. -/
theorem spec_C8_counterexample :
    readToString fs_two_new ctx_ax.chosen_script_path = none ∧
    ("/s/b.koto" ∈ collect_available_scripts fs_two_new ∧
      ctx_ax.available_scripts.contains "/s/b.koto" = false ∧
      readToString fs_two_new "/s/b.koto" = some "B") ∧
    (try_debug oracle_a fs_two_new ctx_ax rt_prev
      [WatcherToMainMessage.noticeRemove "/s/a.koto"]).outcome = TDOutcome.ok ∧
    (try_debug oracle_a fs_two_new ctx_ax rt_prev
      [WatcherToMainMessage.noticeRemove "/s/a.koto"]).ctx.chosen_script_path = "/s/x.koto" ∧
    (try_debug oracle_a fs_two_new ctx_ax rt_prev
      [WatcherToMainMessage.noticeRemove "/s/a.koto"]).ctx.chosen_index_checked = 0 ∧
    "/s/x.koto" ∈ ctx_ax.available_scripts := by
  decide

theorem join_singleton (q : String) : String.join [q] = q := by
  cases q with
  | mk data => rfl

/-- C8 amended: the rename treatment fires exactly when the active path no
longer reads and the paths new to the rebuilt catalog CONCATENATE to a
readable path — in practice, when exactly one new path exists and reads.
Then the session follows that path: active_path and active_source adopt it
and active_index becomes its position in the rebuilt catalog, with no
fallback to index 0; with several new paths the concatenation is garbage
and the code falls back instead, as the counterexample shows. -/
theorem spec_C8 (lo : LangOracle) (fsys : FS) (ctx : Context) (rt : Koto)
    (q src e : String) (rest : List WatcherToMainMessage)
    (hfilter : (collect_available_scripts fsys).filter
      (fun item => !(ctx.available_scripts.contains item)) = [q])
    (hactive : readToString fsys ctx.chosen_script_path = none)
    (hq : readToString fsys q = some src)
    (hcomp : lo.compiles src = true) (hruns : lo.runs src = true) :
    (try_debug lo fsys ctx rt (WatcherToMainMessage.noticeRemove e :: rest)).outcome =
      TDOutcome.ok ∧
    (try_debug lo fsys ctx rt
      (WatcherToMainMessage.noticeRemove e :: rest)).ctx.chosen_script_path = q ∧
    (try_debug lo fsys ctx rt
      (WatcherToMainMessage.noticeRemove e :: rest)).ctx.chosen_script = src ∧
    (try_debug lo fsys ctx rt
      (WatcherToMainMessage.noticeRemove e :: rest)).ctx.chosen_index_checked =
      last_index_of q (collect_available_scripts fsys) ctx.chosen_index_checked ∧
    (try_debug lo fsys ctx rt
      (WatcherToMainMessage.noticeRemove e :: rest)).ctx.chosen_index_checked <
      (try_debug lo fsys ctx rt
        (WatcherToMainMessage.noticeRemove e :: rest)).ctx.available_scripts.length ∧
    (try_debug lo fsys ctx rt
      (WatcherToMainMessage.noticeRemove e :: rest)).rt.loaded = some src := by
  have hjoin : String.join ((collect_available_scripts fsys).filter
      (fun item => !(ctx.available_scripts.contains item))) = q := by
    rw [hfilter]
    exact join_singleton q
  have hqmem : q ∈ collect_available_scripts fsys := by
    have h1 : q ∈ (collect_available_scripts fsys).filter
        (fun item => !(ctx.available_scripts.contains item)) := by
      rw [hfilter]
      simp
    exact List.mem_of_mem_filter h1
  unfold try_debug
  simp only [hjoin, hactive, hq]
  unfold run_after_update compile_run_block_until_valid
  simp only [crbuvF]
  simp [hcomp, hruns]
  exact last_index_of_bound _ _ _ hqmem

/-- Session active on a.koto at index 1, with x.koto listed first. -/
def ctx_xa : Context :=
  { scripts_folder_path := "/s"
    available_scripts := ["/s/x.koto", "/s/a.koto"]
    chosen_index_checked := 1
    chosen_script := "A"
    chosen_script_path := "/s/a.koto" }

/-- Filesystem after a.koto was renamed to b.koto while x.koto remains. -/
def fs_one_new : FS := [("/s/x.koto", "X"), ("/s/b.koto", "B")]

/-- Witness for C8 amended: with exactly one new readable path the session
follows the rename. -/
theorem spec_C8_witness :
    (try_debug oracle_a fs_one_new ctx_xa rt_prev
      [WatcherToMainMessage.noticeRemove "/s/a.koto"]).outcome = TDOutcome.ok ∧
    (try_debug oracle_a fs_one_new ctx_xa rt_prev
      [WatcherToMainMessage.noticeRemove "/s/a.koto"]).ctx.chosen_script_path = "/s/b.koto" ∧
    (try_debug oracle_a fs_one_new ctx_xa rt_prev
      [WatcherToMainMessage.noticeRemove "/s/a.koto"]).ctx.chosen_script = "B" ∧
    (try_debug oracle_a fs_one_new ctx_xa rt_prev
      [WatcherToMainMessage.noticeRemove "/s/a.koto"]).ctx.chosen_index_checked =
      last_index_of "/s/b.koto" (collect_available_scripts fs_one_new)
        ctx_xa.chosen_index_checked ∧
    (try_debug oracle_a fs_one_new ctx_xa rt_prev
      [WatcherToMainMessage.noticeRemove "/s/a.koto"]).ctx.chosen_index_checked <
      (try_debug oracle_a fs_one_new ctx_xa rt_prev
        [WatcherToMainMessage.noticeRemove "/s/a.koto"]).ctx.available_scripts.length ∧
    (try_debug oracle_a fs_one_new ctx_xa rt_prev
      [WatcherToMainMessage.noticeRemove "/s/a.koto"]).rt.loaded = some "B" :=
  spec_C8 oracle_a fs_one_new ctx_xa rt_prev "/s/b.koto" "B" "/s/a.koto" []
    (by decide) (by decide) (by decide) (by decide) (by decide)

/-! ## Claim C6 -/

theorem crbuvF_no_listen (lo : LangOracle) (fsys : FS) :
    ∀ (fuel : Nat) (ctx : Context) (rt : Koto) (events : List WatcherToMainMessage)
      (m : List Nat),
    Action.listenInvoked m ∉ (crbuvF lo fsys fuel ctx rt events).trace := by
  intro fuel
  induction fuel with
  | zero =>
    intro ctx rt events m
    simp [crbuvF]
  | succ fuel ih =>
    intro ctx rt events m
    by_cases hc : lo.compiles ctx.chosen_script
    · by_cases hr : lo.runs ctx.chosen_script
      · simp [crbuvF, hc, hr]
      · rcases hw : findWrite events with _ | ⟨p, rest⟩
        · simp [crbuvF, hc, hr, hw]
        · rcases hrd : readToString fsys p with _ | src
          · simp [crbuvF, hc, hr, hw, hrd]
          · simp [crbuvF, hc, hr, hw, hrd, ih]
    · rcases hw : findWrite events with _ | ⟨p, rest⟩
      · simp [crbuvF, hc, hw]
      · rcases hrd : readToString fsys p with _ | src
        · simp [crbuvF, hc, hw, hrd]
        · simp [crbuvF, hc, hw, hrd, ih]

theorem run_after_update_no_listen (lo : LangOracle) (fsys : FS) (ctx : Context)
    (rt : Koto) (events : List WatcherToMainMessage) (m : List Nat) :
    Action.listenInvoked m ∉ (run_after_update lo fsys ctx rt events).trace := by
  unfold run_after_update compile_run_block_until_valid
  rcases h : (crbuvF lo fsys (events.length + 1) ctx rt events).outcome
  all_goals
    simp only [compile_run_block_until_valid, h]
  all_goals
    simp [crbuvF_no_listen lo fsys (events.length + 1) ctx rt events m]

theorem try_debug_no_listen (lo : LangOracle) (fsys : FS) (ctx : Context)
    (rt : Koto) (events : List WatcherToMainMessage) (m : List Nat) :
    Action.listenInvoked m ∉ (try_debug lo fsys ctx rt events).trace := by
  match events with
  | [] => simp [try_debug]
  | ev :: rest =>
    cases ev with
    | noticeWrite p =>
      unfold try_debug
      rcases h : readToString fsys p with _ | src
      · simp [h]
      · simp only [h]
        exact run_after_update_no_listen lo fsys _ rt rest m
    | noticeRemove p =>
      unfold try_debug
      rcases h1 : readToString fsys ctx.chosen_script_path with _ | s1
      · simp only [h1]
        rcases h2 : readToString fsys (String.join
            ((collect_available_scripts fsys).filter
              (fun item => !(ctx.available_scripts.contains item)))) with _ | s2
        · simp only [h2]
          rcases hcat : collect_available_scripts fsys with _ | ⟨first, others⟩
          · simp [hcat]
          · simp only [hcat]
            rcases hfirst : readToString fsys first with _ | s3
            · simp [hfirst]
            · simp only [hfirst]
              exact run_after_update_no_listen lo fsys _ rt rest m
        · simp only [h2]
          exact run_after_update_no_listen lo fsys _ rt rest m
      · simp [h1]
    | create p => simp [try_debug]
    | werror p => simp [try_debug]

theorem selection_step_no_listen (lo : LangOracle) (fsys : FS)
    (startup_choice max_idx : Nat) (ctx : Context) (rt : Koto)
    (events : List WatcherToMainMessage) (input : String) (m : List Nat) :
    Action.listenInvoked m ∉
      (selection_step lo fsys startup_choice max_idx ctx rt events input).trace := by
  unfold selection_step
  rcases hp : parse_usize input with _ | idx
  · simp
  · by_cases hg : startup_choice > max_idx
    · simp [hg]
    · simp only [hg, if_false]
      by_cases hlt : idx < ctx.available_scripts.length
      · simp only [hlt, dif_pos]
        rcases hrd : readToString fsys ctx.available_scripts[idx] with _ | src
        · simp [hrd]
        · simp only [hrd, compile_run_block_until_valid]
          rcases ho : (crbuvF lo fsys (events.length + 1)
            { ctx with
              chosen_index_checked := idx,
              chosen_script_path := ctx.available_scripts[idx],
              chosen_script := src } rt events).outcome
          all_goals
            simp only [ho]
          all_goals
            simp [crbuvF_no_listen]
      · simp [hlt]

theorem dispatch_stdin_no_listen (lo : LangOracle) (fsys : FS)
    (startup_choice max_idx : Nat) (ctx : Context) (rt : Koto)
    (events : List WatcherToMainMessage) (sp : StdinPoll) (m : List Nat) :
    Action.listenInvoked m ∉
      (dispatch_stdin lo fsys startup_choice max_idx ctx rt events sp).trace := by
  cases sp with
  | received line =>
    simpa [dispatch_stdin] using
      selection_step_no_listen lo fsys startup_choice max_idx ctx rt events line m
  | empty =>
    unfold dispatch_stdin
    rcases h : (try_debug lo fsys ctx rt events).outcome with _ | e | _
    all_goals
      simp only [h]
    all_goals
      simp [try_debug_no_listen]
  | disconnected => simp [dispatch_stdin]

theorem dispatch_send_errors_no_listen (lo : LangOracle) (fsys : FS)
    (startup_choice max_idx : Nat) (ctx : Context) (rt : Koto)
    (events : List WatcherToMainMessage) (send_err : Option String) (sp : StdinPoll)
    (m : List Nat) :
    Action.listenInvoked m ∉
      (dispatch_send_errors lo fsys startup_choice max_idx ctx rt events send_err sp).trace := by
  cases send_err with
  | none =>
    simpa [dispatch_send_errors] using
      dispatch_stdin_no_listen lo fsys startup_choice max_idx ctx rt events sp m
  | some msg =>
    unfold dispatch_send_errors
    rcases h : (try_debug lo fsys ctx rt events).outcome with _ | e | _
    all_goals
      simp only [h]
    all_goals
      simp [try_debug_no_listen, dispatch_stdin_no_listen]

/-- C6 amended: a MIDI message whose listener invocation fails is invoked
exactly once — the failing attempt — and is NOT replayed after the
fix-and-retry attempt, whatever its result; after a successful fix,
dispatch resumes with subsequent messages only. -/
theorem spec_C6 (lo : LangOracle) (li : ListenOracle) (fsys : FS)
    (startup_choice max_idx : Nat) (ctx : Context) (rt : Koto)
    (events : List WatcherToMainMessage) (m : List Nat)
    (send_err : Option String) (sp : StdinPoll)
    (hshape : li.shape rt.loaded = LShape.listenFn)
    (hfail : li.listenOk rt.loaded m = false) :
    (main_loop_iter lo li fsys startup_choice max_idx ctx rt events (some m)
      send_err sp).trace.count (Action.listenInvoked m) = 1 := by
  have hcall : call_midi_listen_with li m rt =
      (Except.error ListenErr.invocation, [Action.listenInvoked m]) := by
    simp [call_midi_listen_with, hshape, hfail]
  simp only [main_loop_iter, hcall]
  have htd0 : (try_debug lo fsys ctx rt events).trace.count (Action.listenInvoked m) = 0 :=
    List.count_eq_zero.mpr (try_debug_no_listen lo fsys ctx rt events m)
  rcases h : (try_debug lo fsys ctx rt events).outcome with _ | e | _
  · simp [h, List.count_append, List.count_cons, htd0]
  · have hb0 : (dispatch_send_errors lo fsys startup_choice max_idx
        (try_debug lo fsys ctx rt events).ctx (try_debug lo fsys ctx rt events).rt
        (try_debug lo fsys ctx rt events).events send_err sp).trace.count
        (Action.listenInvoked m) = 0 :=
      List.count_eq_zero.mpr (dispatch_send_errors_no_listen lo fsys startup_choice
        max_idx _ _ _ send_err sp m)
    simp [h, List.count_append, List.count_cons, htd0, hb0]
  · simp [h, List.count_append, List.count_cons, htd0]

/-- Listener oracle whose listener call fails exactly while the program
fragile is loaded. -/
def li_fragile : ListenOracle :=
  { shape := fun _ => LShape.listenFn, listenOk := fun l _ => l != some "fragile" }

/-- Runtime currently holding the program fragile. -/
def rt_fragile : Koto := { loaded := some "fragile" }

/-- Filesystem where a.koto now holds a good source. -/
def fs_fix : FS := [("/s/a.koto", "good")]

/-- Counterexample to C6: the listener invocation for the message fails,
the pending NoticeWrite fixes the script on the first Modified event
(outcome next, good program loaded), yet the trace holds exactly ONE
invocation of the message — the failing one — and the following iteration
invokes nothing: the message is never replayed. -/
theorem spec_C6_counterexample :
    (main_loop_iter oracle_a li_fragile fs_fix 0 0 ctx_last rt_fragile
      [WatcherToMainMessage.noticeWrite "/s/a.koto"] (some [144, 60, 100]) none
      StdinPoll.empty).outcome = IterOutcome.next ∧
    (main_loop_iter oracle_a li_fragile fs_fix 0 0 ctx_last rt_fragile
      [WatcherToMainMessage.noticeWrite "/s/a.koto"] (some [144, 60, 100]) none
      StdinPoll.empty).rt.loaded = some "good" ∧
    (main_loop_iter oracle_a li_fragile fs_fix 0 0 ctx_last rt_fragile
      [WatcherToMainMessage.noticeWrite "/s/a.koto"] (some [144, 60, 100]) none
      StdinPoll.empty).trace.count (Action.listenInvoked [144, 60, 100]) = 1 ∧
    (main_loop_iter oracle_a li_fragile fs_fix 0 0
      (main_loop_iter oracle_a li_fragile fs_fix 0 0 ctx_last rt_fragile
        [WatcherToMainMessage.noticeWrite "/s/a.koto"] (some [144, 60, 100]) none
        StdinPoll.empty).ctx
      (main_loop_iter oracle_a li_fragile fs_fix 0 0 ctx_last rt_fragile
        [WatcherToMainMessage.noticeWrite "/s/a.koto"] (some [144, 60, 100]) none
        StdinPoll.empty).rt
      (main_loop_iter oracle_a li_fragile fs_fix 0 0 ctx_last rt_fragile
        [WatcherToMainMessage.noticeWrite "/s/a.koto"] (some [144, 60, 100]) none
        StdinPoll.empty).events
      none none StdinPoll.empty).trace.count (Action.listenInvoked [144, 60, 100]) = 0 := by
  decide

/-- Witness for C6 amended at a concrete failing invocation. -/
theorem spec_C6_witness :
    (main_loop_iter oracle_a li_fragile [] 0 0 ctx_last rt_fragile []
      (some [9]) none StdinPoll.empty).trace.count (Action.listenInvoked [9]) = 1 :=
  spec_C6 oracle_a li_fragile [] 0 0 ctx_last rt_fragile [] [9] none StdinPoll.empty
    (by decide) (by decide)

/-! ## Claim C9 -/

/-- Listener oracle whose script never defines midi.listen. -/
def li_absent : ListenOracle :=
  { shape := fun _ => LShape.listenAbsent, listenOk := fun _ _ => true }

/-- Filesystem whose only script fails to compile. -/
def fs_bad_fix : FS := [("/s/a.koto", "bad")]

/-- Counterexample to C9: after a structural listener error (midi.listen
absent — no invocation happens), the dispatcher runs the very same
try_debug recovery as for invocation errors; with a pending NoticeWrite
whose script fails to compile the iteration ends up BLOCKED inside the
fix-and-retry recovery loop, which the claim says structural errors never
enter. -/
theorem spec_C9_counterexample :
    (main_loop_iter oracle_a li_absent fs_bad_fix 0 0 ctx_last rt_prev
      [WatcherToMainMessage.noticeWrite "/s/a.koto"] (some [1]) none
      StdinPoll.empty).outcome = IterOutcome.blocked ∧
    Action.showError ctx_last.chosen_script_path ∈
      (main_loop_iter oracle_a li_absent fs_bad_fix 0 0 ctx_last rt_prev
        [WatcherToMainMessage.noticeWrite "/s/a.koto"] (some [1]) none
        StdinPoll.empty).trace ∧
    (main_loop_iter oracle_a li_absent fs_bad_fix 0 0 ctx_last rt_prev
      [WatcherToMainMessage.noticeWrite "/s/a.koto"] (some [1]) none
      StdinPoll.empty).trace.count (Action.listenInvoked [1]) = 0 := by
  decide

/-- C9 amended: a structural listener error (midi.listen absent or not
callable) is reported once per occurrence, exactly like an invocation
error, and the dispatcher then attempts the SAME try_debug recovery: for
any two listener oracles that differ only in failing structurally versus
failing on invocation, the iteration results agree in session, runtime,
remaining events and outcome, the only difference being the absent
listenInvoked action; in particular structural errors do enter the very
same (possibly blocking) recovery path. -/
theorem spec_C9 (lo : LangOracle) (li1 li2 : ListenOracle) (fsys : FS)
    (startup_choice max_idx : Nat) (ctx : Context) (rt : Koto)
    (events : List WatcherToMainMessage) (m : List Nat)
    (send_err : Option String) (sp : StdinPoll)
    (h1 : li1.shape rt.loaded ≠ LShape.listenFn)
    (h2 : li2.shape rt.loaded = LShape.listenFn)
    (h3 : li2.listenOk rt.loaded m = false) :
    (main_loop_iter lo li2 fsys startup_choice max_idx ctx rt events (some m)
        send_err sp).trace =
      Action.listenInvoked m ::
        (main_loop_iter lo li1 fsys startup_choice max_idx ctx rt events (some m)
          send_err sp).trace ∧
    (main_loop_iter lo li1 fsys startup_choice max_idx ctx rt events (some m)
        send_err sp).ctx =
      (main_loop_iter lo li2 fsys startup_choice max_idx ctx rt events (some m)
        send_err sp).ctx ∧
    (main_loop_iter lo li1 fsys startup_choice max_idx ctx rt events (some m)
        send_err sp).rt =
      (main_loop_iter lo li2 fsys startup_choice max_idx ctx rt events (some m)
        send_err sp).rt ∧
    (main_loop_iter lo li1 fsys startup_choice max_idx ctx rt events (some m)
        send_err sp).events =
      (main_loop_iter lo li2 fsys startup_choice max_idx ctx rt events (some m)
        send_err sp).events ∧
    (main_loop_iter lo li1 fsys startup_choice max_idx ctx rt events (some m)
        send_err sp).outcome =
      (main_loop_iter lo li2 fsys startup_choice max_idx ctx rt events (some m)
        send_err sp).outcome ∧
    Action.showError ctx.chosen_script_path ∈
      (main_loop_iter lo li1 fsys startup_choice max_idx ctx rt events (some m)
        send_err sp).trace := by
  have hcall1 : call_midi_listen_with li1 m rt =
      (Except.error ListenErr.structural, []) := by
    rcases hsh : li1.shape rt.loaded
    · simp [call_midi_listen_with, hsh]
    · simp [call_midi_listen_with, hsh]
    · simp [call_midi_listen_with, hsh]
    · simp [call_midi_listen_with, hsh]
    · exact absurd hsh h1
  have hcall2 : call_midi_listen_with li2 m rt =
      (Except.error ListenErr.invocation, [Action.listenInvoked m]) := by
    simp [call_midi_listen_with, h2, h3]
  simp only [main_loop_iter, hcall1, hcall2]
  rcases h : (try_debug lo fsys ctx rt events).outcome with _ | e | _
  all_goals
    simp [h]

/-- Witness for C9 amended: a structural and an invocation failure on the
same session state produce the same post-state, with the error reported. -/
theorem spec_C9_witness :
    (main_loop_iter oracle_a li_fragile [] 0 0 ctx_last rt_fragile [] (some [7])
        none StdinPoll.empty).trace =
      Action.listenInvoked [7] ::
        (main_loop_iter oracle_a li_absent [] 0 0 ctx_last rt_fragile [] (some [7])
          none StdinPoll.empty).trace ∧
    (main_loop_iter oracle_a li_absent [] 0 0 ctx_last rt_fragile [] (some [7])
        none StdinPoll.empty).ctx =
      (main_loop_iter oracle_a li_fragile [] 0 0 ctx_last rt_fragile [] (some [7])
        none StdinPoll.empty).ctx ∧
    (main_loop_iter oracle_a li_absent [] 0 0 ctx_last rt_fragile [] (some [7])
        none StdinPoll.empty).rt =
      (main_loop_iter oracle_a li_fragile [] 0 0 ctx_last rt_fragile [] (some [7])
        none StdinPoll.empty).rt ∧
    (main_loop_iter oracle_a li_absent [] 0 0 ctx_last rt_fragile [] (some [7])
        none StdinPoll.empty).events =
      (main_loop_iter oracle_a li_fragile [] 0 0 ctx_last rt_fragile [] (some [7])
        none StdinPoll.empty).events ∧
    (main_loop_iter oracle_a li_absent [] 0 0 ctx_last rt_fragile [] (some [7])
        none StdinPoll.empty).outcome =
      (main_loop_iter oracle_a li_fragile [] 0 0 ctx_last rt_fragile [] (some [7])
        none StdinPoll.empty).outcome ∧
    Action.showError ctx_last.chosen_script_path ∈
      (main_loop_iter oracle_a li_absent [] 0 0 ctx_last rt_fragile [] (some [7])
        none StdinPoll.empty).trace :=
  spec_C9 oracle_a li_absent li_fragile [] 0 0 ctx_last rt_fragile [] [7] none
    StdinPoll.empty (by decide) (by decide) (by decide)

end Mep
